import Mathlib

/-!
Verification of the Che plugin service
(`src/extensions/eclipse-che-theia-plugin-ext/src/node/che-plugin-service.ts`).

Strings of the TypeScript source are modelled as `List Char`; the
operations `startsWith`, `endsWith`, `substring`, `indexOf`, `splice`
become their list counterparts.  The HTTP transport, the YAML/JSON
parsing and the external plugin filter are collaborators of the service
and are modelled as function parameters (oracles).  Asynchronous methods
are modelled as pure functions; the observer notifications of
`updateCache` are modelled as an explicit event trace.
-/

/-- A TypeScript string, modelled as its list of characters. -/
abbrev Str := List Char

/-- Converts a Lean string literal to the `Str` model. -/
def str (s : String) : Str := s.toList

/-- Has a string prefix, modelling `String.prototype.startsWith`. -/
def strStartsWith (s p : Str) : Bool := p.isPrefixOf s

/-- Has a string suffix, modelling `String.prototype.endsWith`. -/
def strEndsWith (s p : Str) : Bool := p.isSuffixOf s

/-- Models JavaScript truthiness of an optional string: `undefined` and
the empty string are falsy. -/
def truthy (s : Option Str) : Option Str :=
  match s with
  | some x => if x.isEmpty then none else some x
  | none => none

/-- Models the `links` object of `ChePluginMetadataInternal`; the code
only reads its `self` member, which may be absent at runtime. -/
structure PluginLinks where
  self : Option Str
deriving DecidableEq

/-- Mirrors the `ChePluginMetadataInternal` interface (lines 32-44 of the
source): a plugin entry as listed by a registry index.  `links` is typed
as present but the code guards against its absence, hence `Option`. -/
structure ChePluginMetadataInternal where
  id : Str
  displayName : Str
  version : Str
  type : Str
  name : Str
  description : Str
  publisher : Str
  links : Option PluginLinks
deriving DecidableEq

/-- Modelled from the spec: the `PluginRegistry` record of the data model
(the `ChePluginRegistry` interface lives in `che-plugin-protocol`, outside
the provided source): a name, an internal base uri and a public base uri. -/
structure ChePluginRegistry where
  name : Str
  uri : Str
  publicUri : Str
deriving DecidableEq

/-- Fields of a plugin metadata yaml document as read by
`loadPluginMetadata` from the parsed `props` value. -/
structure PluginYamlProps where
  publisher : Str
  name : Str
  version : Str
  type : Str
  displayName : Str
  title : Str
  description : Str
  icon : Str
  url : Str
  repository : Str
  firstPublicationDate : Str
  category : Str
  latestUpdateDate : Str
deriving DecidableEq

/-- Modelled from the spec: the canonical cached `PluginMetadata` record
(the `ChePluginMetadata` interface lives in `che-plugin-protocol`); its
fields are exactly the ones of the object literal returned by
`loadPluginMetadata` (source lines 330-346). -/
structure ChePluginMetadata where
  publisher : Str
  name : Str
  version : Str
  type : Str
  displayName : Str
  title : Str
  description : Str
  icon : Str
  url : Str
  repository : Str
  firstPublicationDate : Str
  category : Str
  latestUpdateDate : Str
  key : Str
  builtIn : Bool
deriving DecidableEq

/-- The `plugin` member of a devfile component: a reference by `url` or by
`id`, either of which may be absent. -/
structure DevfilePlugin where
  url : Option Str
  id : Option Str
deriving DecidableEq

/-- Modelled from the spec: a devfile component (the `DevfileComponent`
interface lives in `theia-remote-api`).  The service only inspects the
`plugin` member; `other` stands for all remaining component data, which
the service must treat as opaque. -/
structure DevfileComponent where
  plugin : Option DevfilePlugin
  other : Str
deriving DecidableEq

/-- Mirrors `squeezeOutEditors` (source lines 124-126): keeps the plugins
whose `type` differs from the string `Che Editor`. -/
def squeezeOutEditors (plugins : List ChePluginMetadata) (filter : Str) :
    List ChePluginMetadata :=
  plugins.filter fun plugin => decide (str "Che Editor" ≠ plugin.type)

/-- Mirrors `getPlugins` (source lines 209-219).  The external
`PluginFilter.filterPlugins` collaborator is the oracle `filterPlugins`;
it is applied only when `filter` is truthy (non-empty). -/
def getPlugins (cachedPlugins : List ChePluginMetadata)
    (filterPlugins : List ChePluginMetadata → Str → List ChePluginMetadata)
    (filter : Str) : List ChePluginMetadata :=
  let pluginList := cachedPlugins
  let pluginList := if filter.isEmpty then pluginList else filterPlugins pluginList filter
  squeezeOutEditors pluginList filter

/-- Index (0-based) of the last occurrence of `c` in `s`, or `none`,
modelling `String.prototype.lastIndexOf` restricted to the found case. -/
def lastIndexOfChar : Str → Char → Option Nat
  | [], _ => none
  | a :: rest, c =>
    match lastIndexOfChar rest c with
    | some n => some (n + 1)
    | none => if a = c then some 0 else none

/-- Mirrors `getBaseDirectory` (source lines 265-277): a uri ending in
`.json` is truncated to the character after its last `/` (the empty
string when there is none, as `lastIndexOf` returns `-1`); otherwise a
trailing `/` is appended when missing. -/
def getBaseDirectory (uri : Str) : Str :=
  if strEndsWith uri (str ".json") then
    uri.take (((lastIndexOfChar uri '/').map (· + 1)).getD 0)
  else
    if !(strEndsWith uri (str "/")) then uri ++ str "/" else uri

/-- Models the external `URI` class of `@theia/core` as used on line
253-254 of the source: rebuilds `scheme://authority` from a uri of the
shape `scheme://authority/path`.  No claim depends on this collaborator;
it is included so that `getPluginYamlURI` is total on all branches. -/
def schemeAuthority (uri : Str) : Str :=
  let scheme := uri.takeWhile (· ≠ ':')
  let rest := uri.drop (scheme.length + 1)
  let authority :=
    if strStartsWith rest (str "//") then (rest.drop 2).takeWhile (· ≠ '/') else []
  scheme ++ str "://" ++ authority

/-- Mirrors `getPluginYamlURI` (source lines 240-263).  `defaultUri` is
`this.defaultRegistry.uri`.  The guard `plugin.links && plugin.links.self`
is JavaScript truthiness, so an empty `self` falls to the else branch. -/
def getPluginYamlURI (defaultUri : Str) (registry : ChePluginRegistry)
    (plugin : ChePluginMetadataInternal) : Str :=
  match plugin.links with
  | some links =>
    match truthy links.self with
    | some self =>
      if strStartsWith self (str "/") then
        if registry.uri = defaultUri then
          registry.uri ++ str "/plugins/" ++ plugin.id ++ str "/"
        else
          schemeAuthority registry.uri ++ self
      else
        getBaseDirectory registry.uri ++ self
    | none =>
      getBaseDirectory registry.uri ++ str "/" ++ plugin.id ++ str "/meta.yaml"
  | none =>
    getBaseDirectory registry.uri ++ str "/" ++ plugin.id ++ str "/meta.yaml"

/-- Mirrors `normalizeId` (source lines 356-362): strips a trailing
`/meta.yaml` from an absolute `http(s)` url. -/
def normalizeId (id : Str) : Str :=
  if (strStartsWith id (str "http://") || strStartsWith id (str "https://"))
      && strEndsWith id (str "/meta.yaml") then
    id.take (id.length - (str "/meta.yaml").length)
  else
    id

/-- Mirrors `createPluginComponent` (source lines 367-381): an absolute
`http(s)` reference becomes a `url` component with `/meta.yaml` appended,
anything else becomes an `id` component. -/
def createPluginComponent (id : Str) : DevfileComponent :=
  if strStartsWith id (str "http://") || strStartsWith id (str "https://") then
    { plugin := some { url := some (id ++ str "/meta.yaml"), id := none }, other := [] }
  else
    { plugin := some { url := none, id := some id }, other := [] }

/-- The string pushed for one plugin reference by `getWorkspacePlugins`
(source lines 392-400): a truthy `url` is normalized, otherwise a truthy
`id` is taken verbatim, otherwise nothing is pushed. -/
def readPlugin (pr : DevfilePlugin) : Option Str :=
  match truthy pr.url with
  | some u => some (normalizeId u)
  | none => truthy pr.id

/-- Mirrors `getWorkspacePlugins` (source lines 386-402) on the component
list of the devfile returned by the devfile service. -/
def getWorkspacePlugins (components : List DevfileComponent) : List Str :=
  components.filterMap fun component => component.plugin.bind readPlugin

/-- The reference id computed by `setWorkspacePlugins` for an existing
plugin component (source line 414): a truthy `url` is normalized,
otherwise `id` is taken as is, even empty (`indexOf` of an absent id
yields `-1`, modelled by `none`). -/
def pluginRefId (pr : DevfilePlugin) : Option Str :=
  match truthy pr.url with
  | some u => some (normalizeId u)
  | none => pr.id

/-- The `forEach` loop of `setWorkspacePlugins` (source lines 411-421),
as a single left-to-right pass: a non-plugin component is kept; a plugin
component whose reference id has an occurrence in `plugins` is kept and
that one occurrence is spliced out of `plugins`; any other plugin
component is spliced out of the component list.  Returns the surviving
components and the remaining plugins. -/
def setWorkspacePluginsLoop :
    List DevfileComponent → List Str → List DevfileComponent × List Str
  | [], plugins => ([], plugins)
  | component :: rest, plugins =>
    match component.plugin with
    | none =>
      let r := setWorkspacePluginsLoop rest plugins
      (component :: r.1, r.2)
    | some pr =>
      match pluginRefId pr with
      | some id =>
        if id ∈ plugins then
          let r := setWorkspacePluginsLoop rest (plugins.erase id)
          (component :: r.1, r.2)
        else
          setWorkspacePluginsLoop rest plugins
      | none => setWorkspacePluginsLoop rest plugins

/-- Mirrors `setWorkspacePlugins` (source lines 407-429).  The first
result is the updated component list written back to the devfile; the
second is the caller's `plugins` array after the call (the source splices
it destructively), whose entries are exactly the appended components. -/
def setWorkspacePlugins (components : List DevfileComponent) (plugins : List Str) :
    List DevfileComponent × List Str :=
  let r := setWorkspacePluginsLoop components plugins
  (r.1 ++ r.2.map createPluginComponent, r.2)

/-- A devfile component is well formed when any plugin reference it
carries has exactly one of `url` or `id` populated (present and
non-empty), as the data-model invariant of the spec requires. -/
def wellFormedComponent (c : DevfileComponent) : Bool :=
  match c.plugin with
  | none => true
  | some pr =>
    match pr.url, pr.id with
    | some u, none => !u.isEmpty
    | none, some i => !i.isEmpty
    | _, _ => false

/-- Mirrors `loadPluginYaml` (source lines 279-300).  The oracle `fetch`
stands for `httpService.get` followed by `yaml.safeLoad`: it either
yields the parsed document or an error message.  The result is paired
with the list of uris fetched, in order.  On a first failure the uri is
retried once with `meta.yaml` appended (a `/` inserted first when the uri
does not already end with one); when both attempts fail the rejection
carries the first error's message. -/
def loadPluginYaml (fetch : Str → Except Str PluginYamlProps) (yamlURI : Str) :
    Except Str PluginYamlProps × List Str :=
  match fetch yamlURI with
  | Except.ok props => (Except.ok props, [yamlURI])
  | Except.error err =>
    let yamlURI2 :=
      (if !(strEndsWith yamlURI (str "/")) then yamlURI ++ str "/" else yamlURI)
        ++ str "meta.yaml"
    match fetch yamlURI2 with
    | Except.ok props => (Except.ok props, [yamlURI, yamlURI2])
    | Except.error _ =>
      (Except.error (str "Unable to load plugin metadata. " ++ err), [yamlURI, yamlURI2])

/-- The normalization of a loaded plugin document performed by
`loadPluginMetadata` (source lines 308-346): the key computation (short
form, or uri-prefixed long form when the document uri ends with the short
key or with the short key followed by `/meta.yaml`) and the icon rewrite
against the public registry uri. -/
def normalizeMetadata (props : PluginYamlProps) (yamlURI : Str)
    (longKeyFormat : Bool) (pluginRegistryURI : Str) : ChePluginMetadata :=
  let shortKey := props.publisher ++ str "/" ++ props.name ++ str "/" ++ props.version
  let key :=
    if longKeyFormat then
      if strEndsWith yamlURI shortKey then
        let uri := yamlURI.take (yamlURI.length - shortKey.length)
        uri ++ props.publisher ++ str "/" ++ props.name ++ str "/" ++ props.version
      else if strEndsWith yamlURI (shortKey ++ str "/meta.yaml") then
        let uri := yamlURI.take (yamlURI.length - (shortKey ++ str "/meta.yaml").length)
        uri ++ props.publisher ++ str "/" ++ props.name ++ str "/" ++ props.version
      else shortKey
    else shortKey
  let icon :=
    if strStartsWith props.icon (str "http://") || strStartsWith props.icon (str "https://") then
      props.icon
    else
      if strStartsWith props.icon (str "/") then pluginRegistryURI ++ props.icon
      else pluginRegistryURI ++ str "/" ++ props.icon
  { publisher := props.publisher
    name := props.name
    version := props.version
    type := props.type
    displayName := props.displayName
    title := props.title
    description := props.description
    icon := icon
    url := props.url
    repository := props.repository
    firstPublicationDate := props.firstPublicationDate
    category := props.category
    latestUpdateDate := props.latestUpdateDate
    key := key
    builtIn := false }

/-- Mirrors `loadPluginMetadata` (source lines 302-351): loads the yaml
document through `loadPluginYaml` and normalizes it.  On failure the
rejection wraps the propagated message (the source appends
`error.message` of a string rejection, a JavaScript quirk whose exact
text no claim depends on; the propagated message is kept). -/
def loadPluginMetadata (fetch : Str → Except Str PluginYamlProps) (yamlURI : Str)
    (longKeyFormat : Bool) (pluginRegistryURI : Str) : Except Str ChePluginMetadata :=
  match (loadPluginYaml fetch yamlURI).1 with
  | Except.ok props =>
    Except.ok (normalizeMetadata props yamlURI longKeyFormat pluginRegistryURI)
  | Except.error e => Except.error (str "Unable to load plugin metadata. " ++ e)

/-- One observer notification of `updateCache`, mirroring the
`ChePluginServiceClient` callbacks invoked on lines 155-200. -/
inductive CacheEvent where
  | pluginCacheSizeChanged : Nat → CacheEvent
  | pluginCached : Nat → CacheEvent
  | invalidRegistryFound : ChePluginRegistry → CacheEvent
  | invalidPluginFound : Str → CacheEvent
  | cachingComplete : CacheEvent
deriving DecidableEq

/-- The inner plugin loop of `updateCache` (source lines 180-192): for
each plugin summary, resolve its yaml uri and load its metadata through
the `loadMeta` oracle; a success appends to the cache and notifies the
new cache size, a failure notifies `invalidPluginFound` and continues. -/
def updateCachePlugins (loadMeta : Str → Bool → Str → Except Unit ChePluginMetadata)
    (defaultUri : Str) (registry : ChePluginRegistry) (longKeyFormat : Bool) :
    List ChePluginMetadataInternal → List ChePluginMetadata →
    List ChePluginMetadata × List CacheEvent
  | [], cachedPlugins => (cachedPlugins, [])
  | metadataInternal :: rest, cachedPlugins =>
    let pluginYamlURI := getPluginYamlURI defaultUri registry metadataInternal
    match loadMeta pluginYamlURI longKeyFormat registry.publicUri with
    | Except.ok pluginMetadata =>
      let cachedPlugins2 := cachedPlugins ++ [pluginMetadata]
      let r := updateCachePlugins loadMeta defaultUri registry longKeyFormat rest cachedPlugins2
      (r.1, CacheEvent.pluginCached cachedPlugins2.length :: r.2)
    | Except.error _ =>
      let r := updateCachePlugins loadMeta defaultUri registry longKeyFormat rest cachedPlugins
      (r.1, CacheEvent.invalidPluginFound pluginYamlURI :: r.2)

/-- The outer registry loop of `updateCache` (source lines 157-197).  The
`loadIndex` oracle stands for `loadPluginList`: `Except.error` is a
thrown transport or parse error, `Except.ok none` a body that is not an
array, `Except.ok (some l)` a proper plugin list.  Either failure
notifies `invalidRegistryFound` and continues with the next registry. -/
def updateCacheRegistries
    (loadIndex : ChePluginRegistry → Except Unit (Option (List ChePluginMetadataInternal)))
    (loadMeta : Str → Bool → Str → Except Unit ChePluginMetadata) (defaultUri : Str) :
    List ChePluginRegistry → List ChePluginMetadata → Nat →
    List ChePluginMetadata × List CacheEvent
  | [], cachedPlugins, _ => (cachedPlugins, [])
  | registry :: rest, cachedPlugins, availablePlugins =>
    match loadIndex registry with
    | Except.error _ =>
      let r :=
        updateCacheRegistries loadIndex loadMeta defaultUri rest cachedPlugins availablePlugins
      (r.1, CacheEvent.invalidRegistryFound registry :: r.2)
    | Except.ok none =>
      let r :=
        updateCacheRegistries loadIndex loadMeta defaultUri rest cachedPlugins availablePlugins
      (r.1, CacheEvent.invalidRegistryFound registry :: r.2)
    | Except.ok (some registryPlugins) =>
      let availablePlugins2 := availablePlugins + registryPlugins.length
      let longKeyFormat := decide (registry.uri ≠ defaultUri)
      let r1 :=
        updateCachePlugins loadMeta defaultUri registry longKeyFormat registryPlugins cachedPlugins
      let r2 := updateCacheRegistries loadIndex loadMeta defaultUri rest r1.1 availablePlugins2
      (r2.1, CacheEvent.pluginCacheSizeChanged availablePlugins2 :: (r1.2 ++ r2.2))

/-- Mirrors `updateCache` (source lines 141-201).  `client` records
whether an observer is attached (line 142 returns immediately when not);
`defaultUri` is the uri of the resolved default registry (lines 150-152
resolve it through the workspace-settings collaborator before any
notification).  Returns the final cache and the trace of observer
notifications: a leading `pluginCacheSizeChanged 0`, the per-registry
events in processing order, and a terminal `cachingComplete`. -/
def updateCache (client : Bool) (defaultUri : Str)
    (registries : List ChePluginRegistry)
    (loadIndex : ChePluginRegistry → Except Unit (Option (List ChePluginMetadataInternal)))
    (loadMeta : Str → Bool → Str → Except Unit ChePluginMetadata) :
    List ChePluginMetadata × List CacheEvent :=
  if client then
    let r := updateCacheRegistries loadIndex loadMeta defaultUri registries [] 0
    (r.1, CacheEvent.pluginCacheSizeChanged 0 :: (r.2 ++ [CacheEvent.cachingComplete]))
  else ([], [])

/-! Helper lemmas about the string model. -/

theorem strStartsWith_append {k p : Str} (m : Str) (h : strStartsWith k p = true) :
    strStartsWith (k ++ m) p = true := by
  rw [strStartsWith, List.isPrefixOf_iff_prefix] at h ⊢
  exact h.trans (List.prefix_append k m)

theorem strEndsWith_append_self (k m : Str) : strEndsWith (k ++ m) m = true := by
  rw [strEndsWith, List.isSuffixOf_iff_suffix]
  exact List.suffix_append k m

theorem take_append_sub (k m : Str) : (k ++ m).take ((k ++ m).length - m.length) = k := by
  rw [List.length_append, Nat.add_sub_cancel, List.take_left]

theorem strStartsWith_isEmpty_false {s p : Str} (hp : p ≠ []) (h : strStartsWith s p = true) :
    s.isEmpty = false := by
  rw [strStartsWith, List.isPrefixOf_iff_prefix] at h
  obtain ⟨t, ht⟩ := h
  cases p with
  | nil => exact absurd rfl hp
  | cons c cs =>
    rw [List.isEmpty_eq_false]
    intro hs
    rw [hs] at ht
    exact absurd ht (List.cons_ne_nil c (cs ++ t))

theorem strEndsWith_concat_getLast {s p : Str} {c : Char}
    (h : strEndsWith s (p ++ [c]) = true) : s.getLast? = some c := by
  rw [strEndsWith, List.isSuffixOf_iff_suffix] at h
  obtain ⟨t, ht⟩ := h
  rw [← ht, ← List.append_assoc]
  exact List.getLast?_concat (t ++ p)

theorem normalizeId_append_meta {k : Str}
    (h : strStartsWith k (str "http://") = true ∨ strStartsWith k (str "https://") = true) :
    normalizeId (k ++ str "/meta.yaml") = k := by
  have hstart : (strStartsWith (k ++ str "/meta.yaml") (str "http://")
      || strStartsWith (k ++ str "/meta.yaml") (str "https://")) = true := by
    rcases h with h | h
    · rw [strStartsWith_append _ h, Bool.true_or]
    · rw [strStartsWith_append _ h, Bool.or_true]
  have hend : strEndsWith (k ++ str "/meta.yaml") (str "/meta.yaml") = true :=
    strEndsWith_append_self k (str "/meta.yaml")
  rw [normalizeId, hstart, hend, Bool.and_true, if_pos rfl]
  exact take_append_sub k (str "/meta.yaml")

/-! Helper lemmas about the devfile reconciliation. -/

theorem readPlugin_create {k : Str} (hk : k.isEmpty = false) :
    (createPluginComponent k).plugin.bind readPlugin = some k := by
  by_cases h : (strStartsWith k (str "http://") || strStartsWith k (str "https://")) = true
  · have hne : (k ++ str "/meta.yaml").isEmpty = false := by
      rw [List.isEmpty_eq_false]
      simp [str]
    rw [createPluginComponent, if_pos h, Option.some_bind]
    show readPlugin ⟨some (k ++ str "/meta.yaml"), none⟩ = some k
    rw [readPlugin]
    simp only [truthy, hne, Bool.false_eq_true, if_false]
    rw [normalizeId_append_meta (by simpa [Bool.or_eq_true] using h)]
  · rw [createPluginComponent, if_neg h, Option.some_bind]
    show readPlugin ⟨none, some k⟩ = some k
    rw [readPlugin]
    simp only [truthy, hk, Bool.false_eq_true, if_false]

theorem getWorkspacePlugins_append (a b : List DevfileComponent) :
    getWorkspacePlugins (a ++ b) = getWorkspacePlugins a ++ getWorkspacePlugins b := by
  simp [getWorkspacePlugins, List.filterMap_append]

theorem getWorkspacePlugins_cons_none {c : DevfileComponent} {l : List DevfileComponent}
    (h : c.plugin.bind readPlugin = none) :
    getWorkspacePlugins (c :: l) = getWorkspacePlugins l := by
  simp only [getWorkspacePlugins, List.filterMap_cons, h]

theorem getWorkspacePlugins_cons_some {c : DevfileComponent} {l : List DevfileComponent}
    {v : Str} (h : c.plugin.bind readPlugin = some v) :
    getWorkspacePlugins (c :: l) = v :: getWorkspacePlugins l := by
  simp only [getWorkspacePlugins, List.filterMap_cons, h]

theorem getWorkspacePlugins_map_create : ∀ {rem : List Str},
    (∀ k ∈ rem, k.isEmpty = false) →
    getWorkspacePlugins (rem.map createPluginComponent) = rem := by
  intro rem
  induction rem with
  | nil => intro _; rfl
  | cons k ks ih =>
    intro h
    rw [List.map_cons,
      getWorkspacePlugins_cons_some (readPlugin_create (h k (List.mem_cons_self k ks))),
      ih (fun x hx => h x (List.mem_cons_of_mem _ hx))]

theorem wellFormed_refId {c : DevfileComponent} {pr : DevfilePlugin}
    (hw : wellFormedComponent c = true) (hp : c.plugin = some pr) :
    ∃ i, pluginRefId pr = some i ∧ readPlugin pr = some i := by
  rw [wellFormedComponent, hp] at hw
  cases hu : pr.url with
  | some u =>
    cases hi : pr.id with
    | some i => simp [hu, hi] at hw
    | none =>
      simp only [hu, hi] at hw
      have hue : u.isEmpty = false := by simpa using hw
      exact ⟨normalizeId u,
        by simp [pluginRefId, truthy, hu, hue],
        by simp [readPlugin, truthy, hu, hue]⟩
  | none =>
    cases hi : pr.id with
    | some i =>
      simp only [hu, hi] at hw
      have hie : i.isEmpty = false := by simpa using hw
      exact ⟨i,
        by simp [pluginRefId, truthy, hu, hi],
        by simp [readPlugin, truthy, hu, hi, hie]⟩
    | none => simp [hu, hi] at hw

theorem mem_iff_erase {i k : Str} {ps : List Str} (h : i ∈ ps) :
    k ∈ ps ↔ k = i ∨ k ∈ ps.erase i := by
  by_cases hk : k = i
  · subst hk; simp [h]
  · rw [List.mem_erase_of_ne hk]
    simp [hk]

theorem setLoop_sublist : ∀ (comps : List DevfileComponent) (ps : List Str),
    ((setWorkspacePluginsLoop comps ps).2).Sublist ps := by
  intro comps
  induction comps with
  | nil => intro ps; exact List.Sublist.refl ps
  | cons c rest ih =>
    intro ps
    cases hp : c.plugin with
    | none => simpa only [setWorkspacePluginsLoop, hp] using ih ps
    | some pr =>
      cases hid : pluginRefId pr with
      | none => simpa only [setWorkspacePluginsLoop, hp, hid] using ih ps
      | some i =>
        by_cases hm : i ∈ ps
        · have h1 := (ih (ps.erase i)).trans (List.erase_sublist i ps)
          simpa only [setWorkspacePluginsLoop, hp, hid, if_pos hm] using h1
        · simpa only [setWorkspacePluginsLoop, hp, hid, if_neg hm] using ih ps

theorem setLoop_mem_of_mem : ∀ (comps : List DevfileComponent) (ps : List Str),
    ∀ k ∈ (setWorkspacePluginsLoop comps ps).2, k ∈ ps :=
  fun comps ps _ hk => (setLoop_sublist comps ps).subset hk

theorem setLoop_readback : ∀ (comps : List DevfileComponent),
    (∀ c ∈ comps, wellFormedComponent c = true) → ∀ (ps : List Str) (k : Str),
    (k ∈ getWorkspacePlugins (setWorkspacePluginsLoop comps ps).1
      ∨ k ∈ (setWorkspacePluginsLoop comps ps).2) ↔ k ∈ ps := by
  intro comps
  induction comps with
  | nil =>
    intro _ ps k
    simp [setWorkspacePluginsLoop, getWorkspacePlugins]
  | cons c rest ih =>
    intro hw ps k
    have hwc := hw c (List.mem_cons_self c rest)
    have hwrest : ∀ x ∈ rest, wellFormedComponent x = true :=
      fun x hx => hw x (List.mem_cons_of_mem c hx)
    cases hp : c.plugin with
    | none =>
      have hnone : c.plugin.bind readPlugin = none := by rw [hp]; rfl
      have hstep := ih hwrest ps k
      simp only [setWorkspacePluginsLoop, hp]
      rw [getWorkspacePlugins_cons_none hnone]
      exact hstep
    | some pr =>
      obtain ⟨i, hid, hread⟩ := wellFormed_refId hwc hp
      have hbind : c.plugin.bind readPlugin = some i := by
        rw [hp, Option.some_bind, hread]
      by_cases hm : i ∈ ps
      · have hstep := ih hwrest (ps.erase i) k
        simp only [setWorkspacePluginsLoop, hp, hid, if_pos hm]
        rw [getWorkspacePlugins_cons_some hbind, List.mem_cons, mem_iff_erase hm]
        constructor
        · rintro ((hki | hkg) | hkr)
          · exact Or.inl hki
          · exact Or.inr (hstep.mp (Or.inl hkg))
          · exact Or.inr (hstep.mp (Or.inr hkr))
        · rintro (hki | hke)
          · exact Or.inl (Or.inl hki)
          · rcases hstep.mpr hke with hg | hr
            · exact Or.inl (Or.inr hg)
            · exact Or.inr hr
      · have hstep := ih hwrest ps k
        simp only [setWorkspacePluginsLoop, hp, hid, if_neg hm]
        exact hstep

theorem setLoop_splice_count : ∀ (comps : List DevfileComponent) (ps : List Str),
    ((setWorkspacePluginsLoop comps ps).2).length
      + ((setWorkspacePluginsLoop comps ps).1).countP (fun c => c.plugin.isSome)
      = ps.length := by
  intro comps
  induction comps with
  | nil => intro ps; simp [setWorkspacePluginsLoop]
  | cons c rest ih =>
    intro ps
    cases hp : c.plugin with
    | none =>
      have hstep := ih ps
      simp only [setWorkspacePluginsLoop, hp, List.countP_cons, hp, Option.isSome_none,
        Bool.false_eq_true, if_false, Nat.add_zero]
      exact hstep
    | some pr =>
      cases hid : pluginRefId pr with
      | none => simpa only [setWorkspacePluginsLoop, hp, hid] using ih ps
      | some i =>
        by_cases hm : i ∈ ps
        · have hstep := ih (ps.erase i)
          have hlen : (ps.erase i).length = ps.length - 1 := List.length_erase_of_mem hm
          have hpos : 0 < ps.length := List.length_pos_of_mem hm
          simp only [setWorkspacePluginsLoop, hp, hid, if_pos hm, List.countP_cons,
            Option.isSome_some, if_true]
          omega
        · simpa only [setWorkspacePluginsLoop, hp, hid, if_neg hm] using ih ps

theorem setLoop_filter_nonplugin : ∀ (comps : List DevfileComponent) (ps : List Str),
    ((setWorkspacePluginsLoop comps ps).1).filter (fun c => c.plugin.isNone)
      = comps.filter (fun c => c.plugin.isNone) := by
  intro comps
  induction comps with
  | nil => intro ps; rfl
  | cons c rest ih =>
    intro ps
    cases hp : c.plugin with
    | none =>
      simp only [setWorkspacePluginsLoop, hp, List.filter_cons, hp, Option.isNone_none, if_true]
      rw [ih ps]
    | some pr =>
      cases hid : pluginRefId pr with
      | none =>
        simp only [setWorkspacePluginsLoop, hp, hid, List.filter_cons, hp, Option.isNone_some,
          Bool.false_eq_true, if_false]
        exact ih ps
      | some i =>
        by_cases hm : i ∈ ps
        · simp only [setWorkspacePluginsLoop, hp, hid, if_pos hm, List.filter_cons, hp,
            Option.isNone_some, Bool.false_eq_true, if_false]
          exact ih (ps.erase i)
        · simp only [setWorkspacePluginsLoop, hp, hid, if_neg hm, List.filter_cons, hp,
            Option.isNone_some, Bool.false_eq_true, if_false]
          exact ih ps

/-! The claims. -/

/-- Claim C1, counterexample: the claim fails for a desired key list
containing the empty string.  On the empty document (which vacuously has
well-formed plugin components), reconciling with the key list containing
only the empty string appends a component with an empty `id`, which
`getWorkspacePlugins` skips as falsy, so the read-back misses that key. -/
theorem setWorkspacePlugins_empty_key_counterexample :
    (∀ c ∈ ([] : List DevfileComponent), wellFormedComponent c = true)
    ∧ str "" ∈ [str ""]
    ∧ ¬(str "" ∈ getWorkspacePlugins (setWorkspacePlugins [] [str ""]).1
        ↔ str "" ∈ [str ""]) := by
  refine ⟨by decide, by decide, ?_⟩
  decide

/-- Claim C1 (amended: every desired key is additionally non-empty): for
every starting document whose plugin-reference components each have
exactly one of `url` or `id` populated and every list of non-empty
desired keys, after `setWorkspacePlugins` the keys listed by
`getWorkspacePlugins` on the updated document are exactly the desired
keys, as sets. -/
theorem setWorkspacePlugins_getWorkspacePlugins_set_eq
    (comps : List DevfileComponent) (ps : List Str)
    (hw : ∀ c ∈ comps, wellFormedComponent c = true)
    (hne : ∀ k ∈ ps, k.isEmpty = false) (k : Str) :
    k ∈ getWorkspacePlugins (setWorkspacePlugins comps ps).1 ↔ k ∈ ps := by
  have hsub : ∀ x ∈ (setWorkspacePluginsLoop comps ps).2, x.isEmpty = false :=
    fun x hx => hne x (setLoop_mem_of_mem comps ps x hx)
  show k ∈ getWorkspacePlugins ((setWorkspacePluginsLoop comps ps).1
    ++ ((setWorkspacePluginsLoop comps ps).2).map createPluginComponent) ↔ k ∈ ps
  rw [getWorkspacePlugins_append, getWorkspacePlugins_map_create hsub, List.mem_append]
  exact setLoop_readback comps hw ps k

/-- Claim C1 witness: the amended theorem applied at the empty document
and the single desired key `a`. -/
theorem setWorkspacePlugins_getWorkspacePlugins_set_eq_witness :
    str "a" ∈ getWorkspacePlugins (setWorkspacePlugins [] [str "a"]).1
      ↔ str "a" ∈ [str "a"] :=
  setWorkspacePlugins_getWorkspacePlugins_set_eq [] [str "a"] (by decide) (by decide) (str "a")

/-- Claim C2: for every plugin summary whose `links.self` is present and
starts with `/`, when the registry uri equals the default registry's uri,
`getPluginYamlURI` returns exactly `registry.uri + /plugins/ + id + /`,
whatever the literal value of `self`. -/
theorem getPluginYamlURI_default_registry
    (registry : ChePluginRegistry) (plugin : ChePluginMetadataInternal)
    (defaultUri : Str) (links : PluginLinks) (s : Str)
    (hl : plugin.links = some links) (hs : links.self = some s)
    (hstart : strStartsWith s (str "/") = true)
    (huri : registry.uri = defaultUri) :
    getPluginYamlURI defaultUri registry plugin
      = registry.uri ++ str "/plugins/" ++ plugin.id ++ str "/" := by
  have hne : s.isEmpty = false := strStartsWith_isEmpty_false (by simp [str]) hstart
  simp [getPluginYamlURI, hl, hs, truthy, hne, hstart, huri]

/-- Claim C2 witness: the theorem applied at the default registry with a
concrete absolute-path `self` link. -/
theorem getPluginYamlURI_default_registry_witness :
    getPluginYamlURI (str "http://reg/a") ⟨[], str "http://reg/a", []⟩
      ⟨str "pub.pl/1.0", [], [], [], [], [], [],
        some ⟨some (str "/v3/plugins/pub.pl/1.0")⟩⟩
      = str "http://reg/a" ++ str "/plugins/" ++ str "pub.pl/1.0" ++ str "/" :=
  getPluginYamlURI_default_registry ⟨[], str "http://reg/a", []⟩
    ⟨str "pub.pl/1.0", [], [], [], [], [], [],
      some ⟨some (str "/v3/plugins/pub.pl/1.0")⟩⟩
    (str "http://reg/a") ⟨some (str "/v3/plugins/pub.pl/1.0")⟩
    (str "/v3/plugins/pub.pl/1.0") rfl rfl (by decide) rfl

/-- Claim C8: for every document and desired key list,
`setWorkspacePlugins` leaves the non-plugin components (those with no
`plugin` member) unchanged and in their original relative order: filtering
the updated component list to the non-plugin components yields exactly the
non-plugin components of the original list. -/
theorem setWorkspacePlugins_preserves_non_plugin_components
    (comps : List DevfileComponent) (ps : List Str) :
    ((setWorkspacePlugins comps ps).1).filter (fun c => c.plugin.isNone)
      = comps.filter (fun c => c.plugin.isNone) := by
  show (((setWorkspacePluginsLoop comps ps).1
      ++ ((setWorkspacePluginsLoop comps ps).2).map createPluginComponent).filter
        (fun c => c.plugin.isNone)) = comps.filter (fun c => c.plugin.isNone)
  rw [List.filter_append, setLoop_filter_nonplugin]
  have hnil : ((((setWorkspacePluginsLoop comps ps).2).map createPluginComponent).filter
      (fun c => c.plugin.isNone)) = [] := by
    rw [List.filter_eq_nil_iff]
    intro a ha
    obtain ⟨x, _, hx⟩ := List.mem_map.mp ha
    subst hx
    by_cases h : (strStartsWith x (str "http://") || strStartsWith x (str "https://")) = true
    · simp [createPluginComponent, h]
    · simp [createPluginComponent, h]
  rw [hnil, List.append_nil]

/-- Claim C9: building a reference component for a key and reading it
back round-trips: for an absolute `http(s)` key the created `url` member
normalizes back to the key (the appended `/meta.yaml` is stripped again),
and for any other key the created `id` member is the key itself. -/
theorem createPluginComponent_normalizeId_roundtrip (k : Str) :
    ((strStartsWith k (str "http://") = true ∨ strStartsWith k (str "https://") = true) →
      ((createPluginComponent k).plugin.bind DevfilePlugin.url).map normalizeId = some k)
    ∧ (¬(strStartsWith k (str "http://") = true ∨ strStartsWith k (str "https://") = true) →
      (createPluginComponent k).plugin.bind DevfilePlugin.id = some k) := by
  constructor
  · intro h
    have hb : (strStartsWith k (str "http://") || strStartsWith k (str "https://")) = true := by
      rcases h with h | h <;> simp [h]
    rw [createPluginComponent, if_pos hb, Option.some_bind]
    show (some (k ++ str "/meta.yaml")).map normalizeId = some k
    show some (normalizeId (k ++ str "/meta.yaml")) = some k
    rw [normalizeId_append_meta h]
  · intro h
    have hb : (strStartsWith k (str "http://") || strStartsWith k (str "https://")) = false := by
      cases hx : strStartsWith k (str "http://") <;>
        cases hy : strStartsWith k (str "https://") <;> simp_all
    rw [createPluginComponent, if_neg (by simp [hb]), Option.some_bind]

/-- Claim C9 witness: the theorem applied at the url key `http://x` and
projected to the url branch. -/
theorem createPluginComponent_normalizeId_roundtrip_witness :
    ((createPluginComponent (str "http://x")).plugin.bind DevfilePlugin.url).map normalizeId
      = some (str "http://x") :=
  (createPluginComponent_normalizeId_roundtrip (str "http://x")).1 (Or.inl (by decide))

/-- Claim C10: `setWorkspacePlugins` destructively consumes the caller's
`plugins` array.  The array after the call (second component of the
model) is a sublist of the original, each kept plugin component accounts
for exactly one removed occurrence, the updated component list appends
exactly one new component per remaining key, and for a document with a
single matching plugin component the array after the call is the original
with that one occurrence erased. -/
theorem setWorkspacePlugins_splices_caller_array :
    (∀ (comps : List DevfileComponent) (ps : List Str),
      ((setWorkspacePlugins comps ps).2).Sublist ps
      ∧ ((setWorkspacePlugins comps ps).2).length
          + ((setWorkspacePluginsLoop comps ps).1).countP (fun c => c.plugin.isSome)
          = ps.length
      ∧ (setWorkspacePlugins comps ps).1
          = (setWorkspacePluginsLoop comps ps).1
            ++ ((setWorkspacePlugins comps ps).2).map createPluginComponent)
    ∧ (∀ (pr : DevfilePlugin) (other : Str) (ps : List Str) (i : Str),
        pluginRefId pr = some i → i ∈ ps →
        (setWorkspacePlugins [⟨some pr, other⟩] ps).2 = ps.erase i) := by
  constructor
  · intro comps ps
    exact ⟨setLoop_sublist comps ps, setLoop_splice_count comps ps, rfl⟩
  · intro pr other ps i hid hm
    show (setWorkspacePluginsLoop [⟨some pr, other⟩] ps).2 = ps.erase i
    simp only [setWorkspacePluginsLoop, hid, if_pos hm]

/-- Claim C10 witness: a single plugin component with id `a` and the
caller's array containing `a` and `b`: the call erases the occurrence of
`a` from the caller's array. -/
theorem setWorkspacePlugins_splices_caller_array_witness :
    (setWorkspacePlugins [⟨some ⟨none, some (str "a")⟩, []⟩] [str "a", str "b"]).2
      = ([str "a", str "b"]).erase (str "a") :=
  setWorkspacePlugins_splices_caller_array.2 ⟨none, some (str "a")⟩ [] [str "a", str "b"]
    (str "a") rfl (by decide)

/-! Helper lemmas for the cache-update trace. -/

theorem updateCachePlugins_count_complete
    (loadMeta : Str → Bool → Str → Except Unit ChePluginMetadata)
    (defaultUri : Str) (registry : ChePluginRegistry) (longKeyFormat : Bool) :
    ∀ (plugins : List ChePluginMetadataInternal) (cache : List ChePluginMetadata),
    ((updateCachePlugins loadMeta defaultUri registry longKeyFormat plugins cache).2).count
      CacheEvent.cachingComplete = 0 := by
  intro plugins
  induction plugins with
  | nil => intro cache; rfl
  | cons p rest ih =>
    intro cache
    cases hm : loadMeta (getPluginYamlURI defaultUri registry p) longKeyFormat
        registry.publicUri with
    | ok m =>
      simp only [updateCachePlugins, hm]
      rw [List.count_cons_of_ne (by simp)]
      exact ih (cache ++ [m])
    | error e =>
      simp only [updateCachePlugins, hm]
      rw [List.count_cons_of_ne (by simp)]
      exact ih cache

theorem updateCacheRegistries_count_complete
    (loadIndex : ChePluginRegistry → Except Unit (Option (List ChePluginMetadataInternal)))
    (loadMeta : Str → Bool → Str → Except Unit ChePluginMetadata) (defaultUri : Str) :
    ∀ (registries : List ChePluginRegistry) (cache : List ChePluginMetadata)
      (availablePlugins : Nat),
    ((updateCacheRegistries loadIndex loadMeta defaultUri registries cache
      availablePlugins).2).count CacheEvent.cachingComplete = 0 := by
  intro registries
  induction registries with
  | nil => intro cache availablePlugins; rfl
  | cons registry rest ih =>
    intro cache availablePlugins
    cases hi : loadIndex registry with
    | error e =>
      simp only [updateCacheRegistries, hi]
      rw [List.count_cons_of_ne (by simp)]
      exact ih cache availablePlugins
    | ok body =>
      cases body with
      | none =>
        simp only [updateCacheRegistries, hi]
        rw [List.count_cons_of_ne (by simp)]
        exact ih cache availablePlugins
      | some registryPlugins =>
        simp only [updateCacheRegistries, hi]
        rw [List.count_cons_of_ne (by simp), List.count_append,
          updateCachePlugins_count_complete, ih]

/-- Claim C3: with an observer attached, `updateCache` always emits
exactly one `cachingComplete` notification and emits it last, whatever
the registries and however many index fetches fail, return non-arrays, or
plugin document loads fail; the function is total, so no per-item failure
propagates to the caller. -/
theorem updateCache_cachingComplete_once_last
    (defaultUri : Str) (registries : List ChePluginRegistry)
    (loadIndex : ChePluginRegistry → Except Unit (Option (List ChePluginMetadataInternal)))
    (loadMeta : Str → Bool → Str → Except Unit ChePluginMetadata) :
    ((updateCache true defaultUri registries loadIndex loadMeta).2).count
      CacheEvent.cachingComplete = 1
    ∧ ((updateCache true defaultUri registries loadIndex loadMeta).2).getLast?
      = some CacheEvent.cachingComplete := by
  constructor
  · show (CacheEvent.pluginCacheSizeChanged 0
      :: ((updateCacheRegistries loadIndex loadMeta defaultUri registries [] 0).2
        ++ [CacheEvent.cachingComplete])).count CacheEvent.cachingComplete = 1
    rw [List.count_cons_of_ne (by simp), List.count_append,
      updateCacheRegistries_count_complete]
    rfl
  · show (CacheEvent.pluginCacheSizeChanged 0
      :: ((updateCacheRegistries loadIndex loadMeta defaultUri registries [] 0).2
        ++ [CacheEvent.cachingComplete])).getLast? = some CacheEvent.cachingComplete
    rw [← List.cons_append, List.getLast?_concat]

/-- Claim C4: for a plugin document loaded successfully from `yamlURI`,
the computed key is the short key `publisher/name/version` when long
format is not requested; when long format is requested and `yamlURI` ends
with the short key, or with the short key followed by `/meta.yaml`, the
key is the portion of `yamlURI` preceding that suffix concatenated with
the short key; when long format is requested but neither suffix matches,
the key silently falls back to the short key. -/
theorem loadPluginMetadata_key_format
    (fetch : Str → Except Str PluginYamlProps) (yamlURI : Str) (longKeyFormat : Bool)
    (pluginRegistryURI : Str) (props : PluginYamlProps) (shortKey : Str)
    (h : fetch yamlURI = Except.ok props)
    (hkey : shortKey = props.publisher ++ str "/" ++ props.name ++ str "/" ++ props.version) :
    loadPluginMetadata fetch yamlURI longKeyFormat pluginRegistryURI
      = Except.ok (normalizeMetadata props yamlURI longKeyFormat pluginRegistryURI)
    ∧ (longKeyFormat = false →
      (normalizeMetadata props yamlURI longKeyFormat pluginRegistryURI).key = shortKey)
    ∧ (longKeyFormat = true → strEndsWith yamlURI shortKey = true →
      (normalizeMetadata props yamlURI longKeyFormat pluginRegistryURI).key
        = yamlURI.take (yamlURI.length - shortKey.length) ++ shortKey)
    ∧ (longKeyFormat = true → strEndsWith yamlURI shortKey = false →
      strEndsWith yamlURI (shortKey ++ str "/meta.yaml") = true →
      (normalizeMetadata props yamlURI longKeyFormat pluginRegistryURI).key
        = yamlURI.take (yamlURI.length - (shortKey ++ str "/meta.yaml").length) ++ shortKey)
    ∧ (longKeyFormat = true → strEndsWith yamlURI shortKey = false →
      strEndsWith yamlURI (shortKey ++ str "/meta.yaml") = false →
      (normalizeMetadata props yamlURI longKeyFormat pluginRegistryURI).key = shortKey) := by
  subst hkey
  refine ⟨?_, ?_, ?_, ?_, ?_⟩
  · simp only [loadPluginMetadata, loadPluginYaml, h]
  · intro hl
    subst hl
    simp [normalizeMetadata]
  · intro hl he
    subst hl
    simp only [normalizeMetadata, he, if_true, if_pos rfl]
    simp [List.append_assoc]
  · intro hl he1 he2
    subst hl
    simp only [normalizeMetadata, he1, he2, Bool.false_eq_true, if_false, if_true, if_pos rfl]
    simp [List.append_assoc]
  · intro hl he1 he2
    subst hl
    simp only [List.append_assoc] at he1 he2
    simp [normalizeMetadata, he1, he2, List.append_assoc]

/-- A sample parsed plugin document, for concrete evaluations. -/
def sampleProps : PluginYamlProps :=
  ⟨str "pub", str "pl", str "1.0", [], [], [], [], [], [], [], [], [], []⟩

/-- Claim C4 witness: the theorem applied with long format requested and a
document uri ending in the short key followed by `/meta.yaml`. -/
theorem loadPluginMetadata_key_format_witness :
    (normalizeMetadata sampleProps (str "http://reg/b/pub/pl/1.0/meta.yaml") true
      (str "http://pub")).key
      = (str "http://reg/b/pub/pl/1.0/meta.yaml").take
          ((str "http://reg/b/pub/pl/1.0/meta.yaml").length
            - ((str "pub" ++ str "/" ++ str "pl" ++ str "/" ++ str "1.0")
              ++ str "/meta.yaml").length)
        ++ (str "pub" ++ str "/" ++ str "pl" ++ str "/" ++ str "1.0") :=
  (loadPluginMetadata_key_format (fun _ => Except.ok sampleProps)
    (str "http://reg/b/pub/pl/1.0/meta.yaml") true (str "http://pub") sampleProps
    (str "pub" ++ str "/" ++ str "pl" ++ str "/" ++ str "1.0") rfl rfl).2.2.2.1
    rfl (by decide) (by decide)

/-- A sample cached entry with the given `type`, for concrete
evaluations. -/
def sampleMetadata (t : Str) : ChePluginMetadata :=
  ⟨[], [], [], t, [], [], [], [], [], [], [], [], [], [], false⟩

/-- Claim C5, counterexample: `getPlugins` does return an entry whose
`type` equals the literal string `editor`; the reserved type string the
code excludes is `Che Editor`, not `editor`. -/
theorem getPlugins_editor_type_counterexample :
    (sampleMetadata (str "editor")).type = str "editor"
    ∧ sampleMetadata (str "editor")
      ∈ getPlugins [sampleMetadata (str "editor")] (fun l _ => l) [] := by
  exact ⟨rfl, by decide⟩

/-- Claim C5 (amended: the reserved type string is `Che Editor`): for
every cache contents, filter oracle and filter expression, `getPlugins`
never returns an entry whose `type` equals `Che Editor`. -/
theorem getPlugins_no_che_editor
    (cachedPlugins : List ChePluginMetadata)
    (filterPlugins : List ChePluginMetadata → Str → List ChePluginMetadata)
    (filter : Str) (p : ChePluginMetadata)
    (hp : p ∈ getPlugins cachedPlugins filterPlugins filter) :
    p.type ≠ str "Che Editor" := by
  rw [getPlugins, squeezeOutEditors] at hp
  have h2 := (List.mem_filter.mp hp).2
  have h3 := of_decide_eq_true h2
  exact fun he => h3 he.symm

/-- Claim C5 witness: the amended theorem applied to a one-entry cache. -/
theorem getPlugins_no_che_editor_witness :
    (sampleMetadata (str "theia")).type ≠ str "Che Editor" :=
  getPlugins_no_che_editor [sampleMetadata (str "theia")] (fun l _ => l) []
    (sampleMetadata (str "theia")) (by decide)

/-- Claim C6, counterexample: the registry uri `a//` ends with `/` and
not with `.json`, yet `getBaseDirectory` returns it unchanged, with `//`
at its end — not exactly one trailing slash. -/
theorem getBaseDirectory_double_slash_counterexample :
    strEndsWith (str "a//") (str "/") = true
    ∧ strEndsWith (str "a//") (str ".json") = false
    ∧ strEndsWith (getBaseDirectory (str "a//")) (str "//") = true := by
  decide

/-- Claim C6 (amended: the registry uri additionally does not already end
with `//`): for every uri ending with `/` but not with `//`,
`getBaseDirectory` returns the uri unchanged, which therefore ends with
exactly one `/` — it ends with `/` and not with `//`.  Such a uri cannot
end with `.json`, so that hypothesis of the claim is implied. -/
theorem getBaseDirectory_single_trailing_slash (uri : Str)
    (h1 : strEndsWith uri (str "/") = true)
    (h2 : strEndsWith uri (str "//") = false) :
    getBaseDirectory uri = uri
    ∧ strEndsWith (getBaseDirectory uri) (str "/") = true
    ∧ strEndsWith (getBaseDirectory uri) (str "//") = false := by
  have hjson : strEndsWith uri (str ".json") = false := by
    cases hb : strEndsWith uri (str ".json") with
    | false => rfl
    | true =>
      have hl1 : uri.getLast? = some '/' :=
        strEndsWith_concat_getLast (p := []) (c := '/') h1
      have hl2 : uri.getLast? = some 'n' :=
        strEndsWith_concat_getLast (p := str ".jso") (c := 'n') hb
      rw [hl1] at hl2
      exact absurd hl2 (by decide)
  have hbd : getBaseDirectory uri = uri := by
    rw [getBaseDirectory, if_neg (by simp [hjson]), if_neg (by simp [h1])]
  exact ⟨hbd, by rw [hbd]; exact h1, by rw [hbd]; exact h2⟩

/-- Claim C6 witness: the amended theorem applied at a registry uri with
exactly one trailing slash. -/
theorem getBaseDirectory_single_trailing_slash_witness :
    getBaseDirectory (str "http://reg/a/") = str "http://reg/a/" :=
  (getBaseDirectory_single_trailing_slash (str "http://reg/a/") (by decide) (by decide)).1

/-- Claim C7: `loadPluginYaml` returns the document of the first fetch
when it succeeds (fetching only `yamlURI`); when the first fetch fails it
retries exactly once at `yamlURI` with `meta.yaml` appended (inserting a
`/` first when `yamlURI` does not already end with one) and returns that
document on success; when both attempts fail it rejects with a message
carrying the first error's message, not the retry's. -/
theorem loadPluginYaml_retry_semantics
    (fetch : Str → Except Str PluginYamlProps) (yamlURI : Str) :
    (∀ props, fetch yamlURI = Except.ok props →
      loadPluginYaml fetch yamlURI = (Except.ok props, [yamlURI]))
    ∧ (∀ err props, fetch yamlURI = Except.error err →
      fetch ((if !(strEndsWith yamlURI (str "/")) then yamlURI ++ str "/" else yamlURI)
        ++ str "meta.yaml") = Except.ok props →
      loadPluginYaml fetch yamlURI = (Except.ok props,
        [yamlURI, (if !(strEndsWith yamlURI (str "/")) then yamlURI ++ str "/" else yamlURI)
          ++ str "meta.yaml"]))
    ∧ (∀ err1 err2, fetch yamlURI = Except.error err1 →
      fetch ((if !(strEndsWith yamlURI (str "/")) then yamlURI ++ str "/" else yamlURI)
        ++ str "meta.yaml") = Except.error err2 →
      loadPluginYaml fetch yamlURI
        = (Except.error (str "Unable to load plugin metadata. " ++ err1),
          [yamlURI, (if !(strEndsWith yamlURI (str "/")) then yamlURI ++ str "/" else yamlURI)
            ++ str "meta.yaml"])) := by
  refine ⟨?_, ?_, ?_⟩
  · intro props h1
    simp only [loadPluginYaml, h1]
  · intro err props h1 h2
    simp only [loadPluginYaml, h1, h2]
  · intro err1 err2 h1 h2
    simp only [loadPluginYaml, h1, h2]

/-- Claim C7 witness: the theorem applied to a fetch oracle that always
fails; both attempts fail and the rejection carries the first error. -/
theorem loadPluginYaml_retry_semantics_witness :
    loadPluginYaml (fun _ => Except.error (str "boom")) (str "http://x/p")
      = (Except.error (str "Unable to load plugin metadata. " ++ str "boom"),
        [str "http://x/p",
          (if !(strEndsWith (str "http://x/p") (str "/")) then str "http://x/p" ++ str "/"
            else str "http://x/p") ++ str "meta.yaml"]) :=
  (loadPluginYaml_retry_semantics (fun _ => Except.error (str "boom")) (str "http://x/p")).2.2
    (str "boom") (str "boom") rfl rfl
